import Mathlib

/-!
Verification of the espflash serial-monitor subsystem
(`src/espflash/src/cli/monitor/mod.rs`).

The Rust source is shallowly embedded: pure functions become Lean
functions, the stateful monitor loop becomes a step function over an
explicit environment trace, and every fallible operation is represented
by an explicit outcome.  Ambient effects (the wall clock used for log
timestamps, the success of each external I/O call) are passed in as
parameters of the per-iteration environment.
-/

set_option maxRecDepth 8192

namespace EspMonitor

/-- A byte, kept as `Nat` with values below 256 supplied by callers. -/
abbrev Byte := Nat

/-- `LogFormat` from `monitor/mod.rs` lines 46-51. -/
inductive LogFormat
  | Defmt
  | Serial
deriving DecidableEq

/-- Crossterm key modifiers.  The monitor code only ever inspects the
CONTROL bit (`key.modifiers.contains(KeyModifiers::CONTROL)` and
`modifiers & CONTROL == CONTROL`); the remaining bits are carried for
fidelity but never read. -/
structure KeyModifiers where
  control : Bool
  alt : Bool
  shift : Bool
deriving DecidableEq

/-- Crossterm `KeyCode` variants.  `Media`/`Modifier` payloads are
collapsed since `handle_key_event` maps every such variant to `None`
without inspecting the payload. -/
inductive KeyCode
  | Backspace
  | Enter
  | Left
  | Right
  | Up
  | Down
  | Home
  | End
  | PageUp
  | PageDown
  | Tab
  | BackTab
  | Delete
  | Insert
  | F (n : Nat)
  | Char (c : Char)
  | Null
  | Esc
  | CapsLock
  | ScrollLock
  | NumLock
  | PrintScreen
  | Pause
  | Menu
  | KeypadBegin
  | Media
  | Modifier
deriving DecidableEq

/-- Crossterm `KeyEvent`: a key code plus modifiers (the `kind` and
`state` fields of newer crossterm versions are never read by the
monitor and are omitted). -/
structure KeyEvent where
  code : KeyCode
  modifiers : KeyModifiers
deriving DecidableEq

/-- Standard UTF-8 encoding of a single scalar value, modelling Rust's
`char::encode_utf8`. -/
def encodeUtf8Char (c : Char) : List Byte :=
  let n := c.toNat
  if n < 0x80 then [n]
  else if n < 0x800 then
    [0xC0 ||| (n >>> 6), 0x80 ||| (n &&& 0x3F)]
  else if n < 0x10000 then
    [0xE0 ||| (n >>> 12), 0x80 ||| ((n >>> 6) &&& 0x3F), 0x80 ||| (n &&& 0x3F)]
  else
    [0xF0 ||| (n >>> 18), 0x80 ||| ((n >>> 12) &&& 0x3F),
     0x80 ||| ((n >>> 6) &&& 0x3F), 0x80 ||| (n &&& 0x3F)]

/-- `handle_key_event` from `monitor/mod.rs` lines 183-232, embedded
branch by branch.  `ch as u8` is `ch.toNat % 256`; `is_ascii_lowercase`
is the range check `0x61 ≤ _ ≤ 0x7A`; `('4'..='7').contains(&ch)` is
the range check `0x34 ≤ _ ≤ 0x37`. -/
def handle_key_event (key_event : KeyEvent) : Option (List Byte) :=
  match key_event.code with
  | .Backspace => some [0x08]
  | .Enter => some [0x0D]
  | .Left => some [0x1B, 0x5B, 0x44]
  | .Right => some [0x1B, 0x5B, 0x43]
  | .Home => some [0x1B, 0x5B, 0x48]
  | .End => some [0x1B, 0x5B, 0x46]
  | .Up => some [0x1B, 0x5B, 0x41]
  | .Down => some [0x1B, 0x5B, 0x42]
  | .Tab => some [0x09]
  | .Delete => some [0x1B, 0x5B, 0x33, 0x7E]
  | .Insert => some [0x1B, 0x5B, 0x32, 0x7E]
  | .Esc => some [0x1B]
  | .Char ch =>
    if key_event.modifiers.control then
      if (0x61 ≤ ch.toNat ∧ ch.toNat ≤ 0x7A) ∨ ch = ' ' then
        some [(ch.toNat % 256) &&& 0x1F]
      else if 0x34 ≤ ch.toNat ∧ ch.toNat ≤ 0x37 then
        some [((ch.toNat % 256) + 8) &&& 0x1F]
      else
        some (encodeUtf8Char ch)
    else
      some (encodeUtf8Char ch)
  | _ => none

/-- Reference key mapping, written from the specification text: the
fixed escape-sequence table for named keys, the 0-31 mask for
Control+lowercase / Control+space, the offset mapping for
Control+'4'..'7', raw UTF-8 bytes for every other character, and no
output for any other named key. -/
def specTranslate (k : KeyEvent) : Option (List Byte) :=
  match k.code with
  | .Up => some [0x1B, 0x5B, 0x41]
  | .Down => some [0x1B, 0x5B, 0x42]
  | .Right => some [0x1B, 0x5B, 0x43]
  | .Left => some [0x1B, 0x5B, 0x44]
  | .Home => some [0x1B, 0x5B, 0x48]
  | .End => some [0x1B, 0x5B, 0x46]
  | .Delete => some [0x1B, 0x5B, 0x33, 0x7E]
  | .Insert => some [0x1B, 0x5B, 0x32, 0x7E]
  | .Backspace => some [0x08]
  | .Enter => some [0x0D]
  | .Tab => some [0x09]
  | .Esc => some [0x1B]
  | .Char ch =>
    if k.modifiers.control then
      if (0x61 ≤ ch.toNat ∧ ch.toNat ≤ 0x7A) ∨ ch = ' ' then
        some [ch.toNat % 32]
      else if 0x34 ≤ ch.toNat ∧ ch.toNat ≤ 0x37 then
        some [0x1C + (ch.toNat - 0x34)]
      else
        some (encodeUtf8Char ch)
    else
      some (encodeUtf8Char ch)
  | _ => none

lemma ctrlMaskEq : ∀ x : Nat, x < 123 → 97 ≤ x → (x % 256) &&& 31 = x % 32 := by
  decide

lemma ctrlDigitEq : ∀ x : Nat, x < 56 → 52 ≤ x →
    ((x % 256) + 8) &&& 31 = 28 + (x - 52) := by
  decide

/-- C7: the key translator `handle_key_event` is a pure, total,
deterministic function equal to the fixed reference mapping: every
named key in the table yields its one exact byte sequence, Control plus
a lowercase letter or space yields the character code masked into the
0-31 range, Control plus a digit in '4'..'7' maps by offset to
0x1C..0x1F, any other character yields its raw UTF-8 bytes, and any
other named key yields no output. -/
theorem handle_key_event_matches_reference :
    ∀ k : KeyEvent, handle_key_event k = specTranslate k := by
  intro k
  obtain ⟨code, mods⟩ := k
  cases code <;> simp only [handle_key_event, specTranslate]
  case Char c =>
    by_cases hctrl : mods.control
    · simp only [hctrl, if_true]
      by_cases h1 : (0x61 ≤ c.toNat ∧ c.toNat ≤ 0x7A) ∨ c = ' '
      · simp only [h1, if_true]
        rcases h1 with ⟨hlo, hhi⟩ | hsp
        · have := ctrlMaskEq c.toNat (Nat.lt_succ_of_le hhi) hlo
          simp [this]
        · subst hsp
          decide
      · simp only [h1, if_false]
        by_cases h2 : 0x34 ≤ c.toNat ∧ c.toNat ≤ 0x37
        · obtain ⟨hlo, hhi⟩ := h2
          have := ctrlDigitEq c.toNat (Nat.lt_succ_of_le hhi) hlo
          simp [hlo, hhi, this]
        · simp [h2]
    · simp [hctrl]

/-- Character class `[0-9;]` of the first strip regex. -/
def isSgrBody (c : Char) : Bool :=
  (0x30 ≤ c.toNat && c.toNat ≤ 0x39) || c = ';'

/-- Character class `[0-9]` of the second strip regex. -/
def isDigitCh (c : Char) : Bool :=
  0x30 ≤ c.toNat && c.toNat ≤ 0x39

/-- Consume a maximal run of characters satisfying `p`, then require a
literal `'m'`; return the remainder after the match.  Because `'m'`
never satisfies either character class used below, the greedy star of
the regex needs no backtracking: a match at a position exists exactly
when this function succeeds. -/
def matchBodyM (p : Char → Bool) : List Char → Option (List Char)
  | [] => none
  | c :: rest =>
    if p c then matchBodyM p rest
    else if c = 'm' then some rest
    else none

/-- One `replace_all` pass for the regex `\x1b\[[0-9;]*m`
(`monitor/mod.rs` lines 171-172): scan left to right; at each position
try to match `ESC '[' [0-9;]* 'm'`; on a match drop it and resume after
it (Rust's `Regex::replace_all` removes non-overlapping matches of the
original string and never rescans the replaced output).  The fuel
argument is an upper bound on the number of scan steps; each step
consumes at least one character, so `length` fuel always suffices. -/
def stripSgrGo : Nat → List Char → List Char
  | 0, l => l
  | _ + 1, [] => []
  | fuel + 1, c :: rest =>
    if c = '\x1b' then
      match rest with
      | '[' :: rest2 =>
        match matchBodyM isSgrBody rest2 with
        | some rest3 => stripSgrGo fuel rest3
        | none => c :: stripSgrGo fuel rest
      | _ => c :: stripSgrGo fuel rest
    else
      c :: stripSgrGo fuel rest

def stripSgr (l : List Char) : List Char := stripSgrGo l.length l

/-- One `replace_all` pass for the regex `;[0-9]*m`
(`monitor/mod.rs` lines 173-174), with the same scanning scheme. -/
def stripSemiGo : Nat → List Char → List Char
  | 0, l => l
  | _ + 1, [] => []
  | fuel + 1, c :: rest =>
    if c = ';' then
      match matchBodyM isDigitCh rest with
      | some rest2 => stripSemiGo fuel rest2
      | none => c :: stripSemiGo fuel rest
    else
      c :: stripSemiGo fuel rest

def stripSemi (l : List Char) : List Char := stripSemiGo l.length l

/-- The ANSI-strip transformation of
`strip_ansi_formatting_and_apply_timestamp` (`monitor/mod.rs` lines
170-174): first remove every `ESC [ <digits/semicolons> m` substring,
then every residual `; <digits> m` fragment. -/
def stripAnsi (s : String) : String := ⟨stripSemi (stripSgr s.data)⟩

/-- `strip_ansi_formatting_and_apply_timestamp` (`monitor/mod.rs` lines
170-177).  `Local::now().format("%+")` is an ambient wall-clock value;
it is passed in as the `current_time` parameter. -/
def strip_ansi_formatting_and_apply_timestamp
    (current_time : String) (line_str : String) : String :=
  current_time ++ " - " ++ stripAnsi line_str

lemma matchBodyM_isSgrBody_needs_m :
    ∀ l : List Char, (∀ c ∈ l, c ≠ 'm') → matchBodyM isSgrBody l = none := by
  intro l
  induction l with
  | nil => intro _; rfl
  | cons c rest ih =>
    intro h
    simp only [matchBodyM]
    by_cases hp : isSgrBody c
    · simp only [hp, if_true]
      exact ih fun d hd => h d (List.mem_cons_of_mem _ hd)
    · simp [hp, h c (List.mem_cons_self _ _)]

lemma stripSgrGo_of_no_esc :
    ∀ fuel : Nat, ∀ l : List Char, (∀ c ∈ l, c ≠ '\x1b') →
      stripSgrGo fuel l = l := by
  intro fuel
  induction fuel with
  | zero => intro l _; rfl
  | succ n ih =>
    intro l h
    cases l with
    | nil => rfl
    | cons c rest =>
      have hc : c ≠ '\x1b' := h c (List.mem_cons_self _ _)
      simp only [stripSgrGo, hc, if_false]
      rw [ih rest fun d hd => h d (List.mem_cons_of_mem _ hd)]

lemma stripSemiGo_of_no_semi :
    ∀ fuel : Nat, ∀ l : List Char, (∀ c ∈ l, c ≠ ';') →
      stripSemiGo fuel l = l := by
  intro fuel
  induction fuel with
  | zero => intro l _; rfl
  | succ n ih =>
    intro l h
    cases l with
    | nil => rfl
    | cons c rest =>
      have hc : c ≠ ';' := h c (List.mem_cons_self _ _)
      simp only [stripSemiGo, hc, if_false]
      rw [ih rest fun d hd => h d (List.mem_cons_of_mem _ hd)]

/-- C9 counterexample: the strip transformation is not idempotent.
Removing the inner SGR sequence of `"\x1b\x1b[0m[31m"` juxtaposes the
leading escape with the trailing `"[31m"`, creating a fresh SGR
sequence that only a second application removes: one application yields
`"\x1b[31m"`, a second yields `""`. -/
theorem stripAnsi_not_idempotent :
    stripAnsi (stripAnsi "\x1b\x1b[0m[31m") ≠ stripAnsi "\x1b\x1b[0m[31m" := by
  decide

/-- C9 amended: the spec's example strips to `"ERROR"`, and the strip
transformation is idempotent on every input whose stripped form
contains no escape character and no semicolon (removal can only create
a new match by juxtaposing an escape or a semicolon with later text);
it is not idempotent in general. -/
theorem stripAnsi_example_and_conditional_idempotence :
    stripAnsi "\x1b[31mERROR\x1b[0m" = "ERROR" ∧
    ∀ s : String,
      (∀ c ∈ (stripAnsi s).data, c ≠ '\x1b') →
      (∀ c ∈ (stripAnsi s).data, c ≠ ';') →
      stripAnsi (stripAnsi s) = stripAnsi s := by
  constructor
  · decide
  · intro s hEsc hSemi
    show (⟨stripSemi (stripSgr (stripAnsi s).data)⟩ : String) = stripAnsi s
    rw [stripSgr, stripSgrGo_of_no_esc _ _ hEsc,
        stripSemi, stripSemiGo_of_no_semi _ _ hSemi]

/-- Witness for C9's amended theorem at the concrete input
`"\x1b[32mok\x1b[0m"`, whose stripped form `"ok"` is free of escapes
and semicolons. -/
theorem stripAnsi_idempotent_witness :
    stripAnsi (stripAnsi "\x1b[32mok\x1b[0m") = stripAnsi "\x1b[32mok\x1b[0m" :=
  stripAnsi_example_and_conditional_idempotence.2 "\x1b[32mok\x1b[0m"
    (by decide) (by decide)

/-- Is `b` a UTF-8 continuation byte (`0x80..=0xBF`)? -/
def contByte (b : Byte) : Bool := 0x80 ≤ b && b ≤ 0xBF

/-- One multi-byte UTF-8 sequence led by the non-ASCII byte `b`: the
decoded scalar and the remaining input, or `none` when `b` and the
following bytes are not a valid sequence.  The side conditions follow
the standard validity table (no overlong encodings, no surrogates,
nothing above `0x10FFFF`), which is exactly what Rust's
`String::from_utf8` enforces. -/
def utf8Step (b : Byte) (rest : List Byte) : Option (Char × List Byte) :=
  if 0xC2 ≤ b ∧ b ≤ 0xDF then
    match rest with
    | b1 :: rest2 =>
      if contByte b1 then
        some (Char.ofNat (((b - 0xC0) <<< 6) + (b1 - 0x80)), rest2)
      else none
    | [] => none
  else if 0xE0 ≤ b ∧ b ≤ 0xEF then
    match rest with
    | b1 :: b2 :: rest3 =>
      if (if b = 0xE0 then 0xA0 ≤ b1 && b1 ≤ 0xBF
          else if b = 0xED then 0x80 ≤ b1 && b1 ≤ 0x9F
          else contByte b1) && contByte b2 then
        some (Char.ofNat (((b - 0xE0) <<< 12) + ((b1 - 0x80) <<< 6) + (b2 - 0x80)),
          rest3)
      else none
    | _ => none
  else if 0xF0 ≤ b ∧ b ≤ 0xF4 then
    match rest with
    | b1 :: b2 :: b3 :: rest4 =>
      if (if b = 0xF0 then 0x90 ≤ b1 && b1 ≤ 0xBF
          else if b = 0xF4 then 0x80 ≤ b1 && b1 ≤ 0x8F
          else contByte b1) && contByte b2 && contByte b3 then
        some (Char.ofNat (((b - 0xF0) <<< 18) + ((b1 - 0x80) <<< 12) +
          ((b2 - 0x80) <<< 6) + (b3 - 0x80)), rest4)
      else none
    | _ => none
  else none

/-- Strict UTF-8 decoding of a byte list, modelling Rust's
`String::from_utf8`; `none` models the `Err` case (which the monitor
turns into a panic via `.unwrap()`).  The fuel argument is an upper
bound on the number of decoded characters; every step consumes at
least one byte, so `length` fuel always suffices. -/
def utf8DecodeGoF : Nat → List Byte → Option (List Char)
  | _, [] => some []
  | 0, _ :: _ => none
  | fuel + 1, b :: rest =>
    if b ≤ 0x7F then
      (utf8DecodeGoF fuel rest).map fun cs => Char.ofNat b :: cs
    else
      match utf8Step b rest with
      | some (c, rest2) => (utf8DecodeGoF fuel rest2).map fun cs => c :: cs
      | none => none

/-- `String::from_utf8(bytes)`: `some` on valid UTF-8, `none` on the
error case. -/
def utf8Decode? (bs : List Byte) : Option String :=
  (utf8DecodeGoF bs.length bs).map fun cs => ⟨cs⟩

/-- Outcome of one `serial.read(&mut buff)` call (`monitor/mod.rs`
lines 120-136): a successful read of a chunk, a timeout, an
interruption, or any other I/O error. -/
inductive ReadResult
  | ok (chunk : List Byte)
  | timedOut
  | interrupted
  | fatal
deriving DecidableEq

/-- Outcome of the keyboard poll of one iteration (`monitor/mod.rs`
lines 146-147): nothing pending, a key event, a pending non-key event,
or an error from `poll`/`read` (which propagates via `?`). -/
inductive KbdPoll
  | idle
  | key (k : KeyEvent)
  | other
  | pollErr
deriving DecidableEq

/-- The ambient environment of one loop iteration: the serial read
outcome, the wall-clock rendering `Local::now().format("%+")` used if a
log line is written this iteration, and the success of each external
call that the iteration may make. -/
structure IterEnv where
  rd : ReadResult
  ts : String
  logWriteOk : Bool
  kbd : KbdPoll
  resetOk : Bool
  writeOk : Bool
deriving DecidableEq

/-- Observable side effects of `monitor`, in program order. -/
inductive Action
  | printHelp
  | reset
  | rawEnable (ok : Bool)
  | rawDisable
  | reportDisableFail
  | logOpenWarn
  | logWrite (s : String)
  | logWriteWarn
  | logNewline
  | feed (bytes : List Byte)
  | flushLog
  | flushStdout
  | serialSend (bytes : List Byte)
deriving DecidableEq

/-- Result of one loop iteration: continue with a new buffer state,
`break` out of the loop (`Ok(())`), propagate an error (`?`), or panic
(`.unwrap()` on invalid UTF-8). -/
inductive StepOut
  | proceed (buf : List Byte) (acts : List Action)
  | exitOk (acts : List Action)
  | exitErr (acts : List Action)
  | exitPanic (acts : List Action)
deriving DecidableEq

/-- The actions emitted by a step, regardless of how it ended. -/
def stepActs : StepOut → List Action
  | .proceed _ acts => acts
  | .exitOk acts => acts
  | .exitErr acts => acts
  | .exitPanic acts => acts

/-- How `monitor` as a whole ends: `Ok(())`, `Err(_)`, a panic, or
still inside the loop when the modelled environment trace runs out
(the real loop runs until one of the first three). -/
inductive Outcome
  | ok
  | err
  | panic
  | running
deriving DecidableEq

/-- `let mut buff = [0; 1024];` (`monitor/mod.rs` line 108). -/
def initBuff : List Byte := List.replicate 1024 0

/-- `serial.read(&mut buff)` writing a `chunk.length`-byte chunk into
the front of the buffer; the rest of the buffer keeps its previous
contents. -/
def writeBuf (chunk buf : List Byte) : List Byte :=
  chunk ++ buf.drop chunk.length

/-- Lines 122-130: if a log file is open, convert the WHOLE buffer with
`String::from_utf8(buff.to_vec()).unwrap()` (note: not just the bytes
of this read), write the stripped/timestamped line (warning on
failure), then write a newline.  `none` models the `.unwrap()` panic on
invalid UTF-8. -/
def logPhase (hasLog : Bool) (env : IterEnv) (buf : List Byte) :
    Option (List Action) :=
  if hasLog then
    match utf8Decode? buf with
    | none => none
    | some line =>
      some ([Action.logWrite (strip_ansi_formatting_and_apply_timestamp env.ts line)]
        ++ (if env.logWriteOk then [] else [Action.logWriteWarn])
        ++ [Action.logNewline])
  else
    some []

/-- Lines 146-164: the keyboard phase of an iteration (only reached in
interactive mode).  Control+C breaks the loop, Control+R resets and
continues (its `reset_after_flash(..)?` propagates a failure), any
other key is translated and the bytes written to the serial channel
(`write_all(..)?` / `flush(..)?` propagate failures). -/
def keyboardPhase (env : IterEnv) (buf : List Byte) (acts : List Action) : StepOut :=
  match env.kbd with
  | .pollErr => .exitErr acts
  | .idle => .proceed buf acts
  | .other => .proceed buf acts
  | .key k =>
    if k.modifiers.control ∧ k.code = KeyCode.Char 'c' then
      .exitOk acts
    else if k.modifiers.control ∧ k.code = KeyCode.Char 'r' then
      if env.resetOk then .proceed buf (acts ++ [Action.reset])
      else .exitErr (acts ++ [Action.reset])
    else
      match handle_key_event k with
      | some bytes =>
        if env.writeOk then .proceed buf (acts ++ [Action.serialSend bytes])
        else .exitErr (acts ++ [Action.serialSend bytes])
      | none => .proceed buf acts

/-- Lines 138-164: after the read result has been settled to a byte
count, feed `buff[0..read_count]` to the parser, flush the log file (if
open) and stdout, then run the keyboard phase when interactive. -/
def afterRead (interactive hasLog : Bool) (env : IterEnv) (buf : List Byte)
    (count : Nat) (acts : List Action) : StepOut :=
  let acts2 := acts ++ [Action.feed (buf.take count)]
    ++ (if hasLog then [Action.flushLog] else [])
    ++ [Action.flushStdout]
  if interactive then keyboardPhase env buf acts2 else .proceed buf acts2

/-- One iteration of the monitor loop (`monitor/mod.rs` lines
119-165): a successful read logs the whole buffer then continues with
the read count; a timeout is a zero-byte read; an interrupted read is
`continue` (nothing else happens this iteration); any other read error
propagates. -/
def stepIter (interactive hasLog : Bool) (buf : List Byte) (env : IterEnv) : StepOut :=
  match env.rd with
  | .interrupted => .proceed buf []
  | .fatal => .exitErr []
  | .timedOut => afterRead interactive hasLog env buf 0 []
  | .ok chunk =>
    let buf2 := writeBuf chunk buf
    match logPhase hasLog env buf2 with
    | none => .exitPanic []
    | some logActs => afterRead interactive hasLog env buf2 chunk.length logActs

/-- The monitor loop, driven by a finite trace of per-iteration
environments; `Outcome.running` means the trace ended with the loop
still alive. -/
def runLoop (interactive hasLog : Bool) : List Byte → List IterEnv → Outcome × List Action
  | _, [] => (.running, [])
  | buf, env :: rest =>
    match stepIter interactive hasLog buf env with
    | .proceed buf2 acts =>
      let r := runLoop interactive hasLog buf2 rest
      (r.1, acts ++ r.2)
    | .exitOk acts => (.ok, acts)
    | .exitErr acts => (.err, acts)
    | .exitPanic acts => (.panic, acts)

/-- Static configuration of one `monitor` call plus the success of each
pre-loop external call: the function arguments that the claims range
over (`interactive_mode`, `elf`, `log_format`, `log_path`) and the
ambient outcome of `reset_after_flash`, `set_baud_rate`, `set_timeout`,
`OpenOptions::open`, `enable_raw_mode` and `disable_raw_mode`. -/
structure MonitorCfg where
  interactive : Bool
  hasElf : Bool
  log_format : LogFormat
  hasLogPath : Bool
  logOpenOk : Bool
  initResetOk : Bool
  baudOk : Bool
  timeoutOk : Bool
  enableRawOk : Bool
  disableRawOk : Bool
deriving DecidableEq

/-- Lines 81-88: interactive mode prints the command help; otherwise
`reset_after_flash(&mut serial, pid)?` runs first. -/
def preActs (cfg : MonitorCfg) : List Action :=
  if cfg.interactive then [Action.printHelp] else [Action.reset]

/-- Dropping the `Result<RawModeGuard>` bound at line 98: when raw mode
was enabled, `disable_raw_mode` runs exactly once; a failure of it is
logged (`error!`) and not re-raised.  When `enable_raw_mode` failed,
the binding holds an `Err` and nothing happens. -/
def dropGuard (enabled disableOk : Bool) : List Action :=
  if enabled then
    Action.rawDisable :: (if disableOk then [] else [Action.reportDisableFail])
  else []

/-- Modelled from the spec: the construction of the structured-trace
decoder, `EspDefmt::new(elf)` (`monitor/mod.rs` line 104), lives in the
`parser` module, which is not among the sources under verification; per
the spec, construction fails with a configuration error exactly when
the structured-trace (defmt) format is selected without a firmware
image. -/
abbrev defmtConstructionFails (log_format : LogFormat) (hasElf : Bool) : Prop :=
  log_format = LogFormat.Defmt ∧ hasElf = false

/-- `monitor` (`monitor/mod.rs` lines 72-168).  `RawModeGuard::new()`
is bound WITHOUT `?` at line 98, so its failure is ignored. -/
def monitor (cfg : MonitorCfg) (trace : List IterEnv) : Outcome × List Action :=
  if !cfg.interactive && !cfg.initResetOk then (.err, [Action.reset])
  else if !cfg.baudOk then (.err, preActs cfg)
  else if !cfg.timeoutOk then (.err, preActs cfg)
  else if defmtConstructionFails cfg.log_format cfg.hasElf then
    (.err, preActs cfg ++ [Action.rawEnable cfg.enableRawOk]
      ++ dropGuard cfg.enableRawOk cfg.disableRawOk)
  else
    let hasLog := cfg.hasLogPath && cfg.logOpenOk
    let warnActs := if cfg.hasLogPath && !cfg.logOpenOk then [Action.logOpenWarn] else []
    let r := runLoop cfg.interactive hasLog initBuff trace
    let post := if r.1 = Outcome.running then []
      else dropGuard cfg.enableRawOk cfg.disableRawOk
    (r.1, preActs cfg ++ [Action.rawEnable cfg.enableRawOk] ++ warnActs ++ r.2 ++ post)

/-- Does this iteration's keyboard poll deliver Control+C? -/
def isCtrlC (env : IterEnv) : Bool :=
  match env.kbd with
  | .key k => k.modifiers.control && decide (k.code = KeyCode.Char 'c')
  | _ => false

/-- Raw-mode related effects. -/
def isRawAct : Action → Bool
  | .rawEnable _ => true
  | .rawDisable => true
  | .reportDisableFail => true
  | _ => false

/-- Log-file write effects. -/
def isLogWriteB : Action → Bool
  | .logWrite _ => true
  | _ => false

lemma mem_keyboardPhase {env : IterEnv} {buf : List Byte} {acts : List Action}
    {a : Action} (ha : a ∈ stepActs (keyboardPhase env buf acts)) :
    a ∈ acts ∨ a = Action.reset ∨ ∃ bs, a = Action.serialSend bs := by
  obtain ⟨rd, ts, lw, kbd, rok, wok⟩ := env
  cases kbd with
  | pollErr => exact Or.inl ha
  | idle => exact Or.inl ha
  | other => exact Or.inl ha
  | key k =>
    simp only [keyboardPhase] at ha
    by_cases h1 : k.modifiers.control ∧ k.code = KeyCode.Char 'c'
    · rw [if_pos h1] at ha
      exact Or.inl ha
    · rw [if_neg h1] at ha
      by_cases h2 : k.modifiers.control ∧ k.code = KeyCode.Char 'r'
      · rw [if_pos h2] at ha
        by_cases h3 : rok = true
        · rw [if_pos h3] at ha
          simp only [stepActs, List.mem_append, List.mem_singleton] at ha
          rcases ha with ha | ha
          · exact Or.inl ha
          · exact Or.inr (Or.inl ha)
        · rw [if_neg h3] at ha
          simp only [stepActs, List.mem_append, List.mem_singleton] at ha
          rcases ha with ha | ha
          · exact Or.inl ha
          · exact Or.inr (Or.inl ha)
      · rw [if_neg h2] at ha
        rcases hke : handle_key_event k with _ | bytes <;> rw [hke] at ha <;>
          dsimp only at ha
        · exact Or.inl ha
        · by_cases h4 : wok = true
          · rw [if_pos h4] at ha
            simp only [stepActs, List.mem_append, List.mem_singleton] at ha
            rcases ha with ha | ha
            · exact Or.inl ha
            · exact Or.inr (Or.inr ⟨bytes, ha⟩)
          · rw [if_neg h4] at ha
            simp only [stepActs, List.mem_append, List.mem_singleton] at ha
            rcases ha with ha | ha
            · exact Or.inl ha
            · exact Or.inr (Or.inr ⟨bytes, ha⟩)

lemma mem_afterRead {i h : Bool} {env : IterEnv} {buf : List Byte} {count : Nat}
    {acts : List Action} {a : Action}
    (ha : a ∈ stepActs (afterRead i h env buf count acts)) :
    a ∈ acts ∨ (∃ bs, a = Action.feed bs) ∨ a = Action.flushLog ∨
    a = Action.flushStdout ∨ a = Action.reset ∨ ∃ bs, a = Action.serialSend bs := by
  simp only [afterRead] at ha
  have base : ∀ hb : a ∈ acts ++ [Action.feed (buf.take count)]
      ++ (if h then [Action.flushLog] else []) ++ [Action.flushStdout],
      a ∈ acts ∨ (∃ bs, a = Action.feed bs) ∨ a = Action.flushLog ∨
      a = Action.flushStdout ∨ a = Action.reset ∨ ∃ bs, a = Action.serialSend bs := by
    intro hb
    simp only [List.mem_append, List.mem_singleton] at hb
    rcases hb with ((hb | hb) | hb) | hb
    · exact Or.inl hb
    · exact Or.inr (Or.inl ⟨_, hb⟩)
    · split at hb
      · simp only [List.mem_singleton] at hb
        exact Or.inr (Or.inr (Or.inl hb))
      · exact absurd hb (List.not_mem_nil a)
    · exact Or.inr (Or.inr (Or.inr (Or.inl hb)))
  cases i with
  | false => exact base ha
  | true =>
    rcases mem_keyboardPhase ha with hb | hb | hb
    · exact base hb
    · exact Or.inr (Or.inr (Or.inr (Or.inr (Or.inl hb))))
    · exact Or.inr (Or.inr (Or.inr (Or.inr (Or.inr hb))))

lemma mem_logPhase {h : Bool} {env : IterEnv} {buf : List Byte}
    {acts : List Action} {a : Action} (hl : logPhase h env buf = some acts)
    (ha : a ∈ acts) :
    (∃ s, a = Action.logWrite s) ∨ a = Action.logWriteWarn ∨ a = Action.logNewline := by
  simp only [logPhase] at hl
  split at hl
  · split at hl
    · exact absurd hl (by simp)
    · rcases Option.some_injective _ hl with rfl
      simp only [List.mem_append, List.mem_singleton] at ha
      rcases ha with (ha | ha) | ha
      · exact Or.inl ⟨_, ha⟩
      · split at ha
        · exact absurd ha (List.not_mem_nil a)
        · simp only [List.mem_singleton] at ha
          exact Or.inr (Or.inl ha)
      · exact Or.inr (Or.inr ha)
  · rcases Option.some_injective _ hl with rfl
    exact absurd ha (List.not_mem_nil a)

/-- Any action an iteration can emit. -/
lemma mem_stepActs {i h : Bool} {buf : List Byte} {env : IterEnv} {a : Action}
    (ha : a ∈ stepActs (stepIter i h buf env)) :
    (∃ s, a = Action.logWrite s) ∨ a = Action.logWriteWarn ∨ a = Action.logNewline ∨
    (∃ bs, a = Action.feed bs) ∨ a = Action.flushLog ∨ a = Action.flushStdout ∨
    a = Action.reset ∨ ∃ bs, a = Action.serialSend bs := by
  rcases henv : env with ⟨rd, ts, lw, kbd, rok, wok⟩
  rw [henv] at ha
  cases rd with
  | interrupted => exact absurd ha (List.not_mem_nil a)
  | fatal => exact absurd ha (List.not_mem_nil a)
  | timedOut =>
    simp only [stepIter] at ha
    rcases mem_afterRead ha with hb | hb
    · exact absurd hb (List.not_mem_nil a)
    · rcases hb with hb | hb | hb | hb | hb
      · exact Or.inr (Or.inr (Or.inr (Or.inl hb)))
      · exact Or.inr (Or.inr (Or.inr (Or.inr (Or.inl hb))))
      · exact Or.inr (Or.inr (Or.inr (Or.inr (Or.inr (Or.inl hb)))))
      · exact Or.inr (Or.inr (Or.inr (Or.inr (Or.inr (Or.inr (Or.inl hb))))))
      · exact Or.inr (Or.inr (Or.inr (Or.inr (Or.inr (Or.inr (Or.inr hb))))))
  | ok chunk =>
    simp only [stepIter] at ha
    rcases hlp : logPhase h ⟨ReadResult.ok chunk, ts, lw, kbd, rok, wok⟩
        (writeBuf chunk buf) with _ | logActs <;> rw [hlp] at ha
    · exact absurd ha (List.not_mem_nil a)
    · rcases mem_afterRead ha with hb | hb
      · rcases mem_logPhase hlp hb with hc | hc | hc
        · exact Or.inl hc
        · exact Or.inr (Or.inl hc)
        · exact Or.inr (Or.inr (Or.inl hc))
      · rcases hb with hb | hb | hb | hb | hb
        · exact Or.inr (Or.inr (Or.inr (Or.inl hb)))
        · exact Or.inr (Or.inr (Or.inr (Or.inr (Or.inl hb))))
        · exact Or.inr (Or.inr (Or.inr (Or.inr (Or.inr (Or.inl hb)))))
        · exact Or.inr (Or.inr (Or.inr (Or.inr (Or.inr (Or.inr (Or.inl hb))))))
        · exact Or.inr (Or.inr (Or.inr (Or.inr (Or.inr (Or.inr (Or.inr hb))))))

/-- In non-interactive mode an iteration never reaches the keyboard
phase, so it can neither send serial bytes nor reset. -/
lemma mem_stepActs_noninteractive {h : Bool} {buf : List Byte} {env : IterEnv}
    {a : Action} (ha : a ∈ stepActs (stepIter false h buf env)) :
    (∃ s, a = Action.logWrite s) ∨ a = Action.logWriteWarn ∨ a = Action.logNewline ∨
    (∃ bs, a = Action.feed bs) ∨ a = Action.flushLog ∨ a = Action.flushStdout := by
  rcases henv : env with ⟨rd, ts, lw, kbd, rok, wok⟩
  rw [henv] at ha
  have base : ∀ {acts : List Action} {count : Nat} {bf : List Byte},
      a ∈ stepActs (afterRead false h ⟨rd, ts, lw, kbd, rok, wok⟩ bf count acts) →
      a ∈ acts ∨ (∃ bs, a = Action.feed bs) ∨ a = Action.flushLog ∨
        a = Action.flushStdout := by
    intro acts count bf hb
    simp only [afterRead, Bool.false_eq_true, if_false, stepActs,
      List.mem_append, List.mem_singleton] at hb
    rcases hb with ((hb | hb) | hb) | hb
    · exact Or.inl hb
    · exact Or.inr (Or.inl ⟨_, hb⟩)
    · split at hb
      · simp only [List.mem_singleton] at hb
        exact Or.inr (Or.inr (Or.inl hb))
      · exact absurd hb (List.not_mem_nil a)
    · exact Or.inr (Or.inr (Or.inr hb))
  cases rd with
  | interrupted => exact absurd ha (List.not_mem_nil a)
  | fatal => exact absurd ha (List.not_mem_nil a)
  | timedOut =>
    simp only [stepIter] at ha
    rcases base ha with hb | hb | hb | hb
    · exact absurd hb (List.not_mem_nil a)
    · exact Or.inr (Or.inr (Or.inr (Or.inl hb)))
    · exact Or.inr (Or.inr (Or.inr (Or.inr (Or.inl hb))))
    · exact Or.inr (Or.inr (Or.inr (Or.inr (Or.inr hb))))
  | ok chunk =>
    simp only [stepIter] at ha
    rcases hlp : logPhase h ⟨ReadResult.ok chunk, ts, lw, kbd, rok, wok⟩
        (writeBuf chunk buf) with _ | logActs <;> rw [hlp] at ha
    · exact absurd ha (List.not_mem_nil a)
    · rcases base ha with hb | hb | hb | hb
      · rcases mem_logPhase hlp hb with hc | hc | hc
        · exact Or.inl hc
        · exact Or.inr (Or.inl hc)
        · exact Or.inr (Or.inr (Or.inl hc))
      · exact Or.inr (Or.inr (Or.inr (Or.inl hb)))
      · exact Or.inr (Or.inr (Or.inr (Or.inr (Or.inl hb))))
      · exact Or.inr (Or.inr (Or.inr (Or.inr (Or.inr hb))))

lemma keyboardPhase_exitOk {env : IterEnv} {buf : List Byte} {acts res : List Action}
    (hk : keyboardPhase env buf acts = StepOut.exitOk res) : isCtrlC env = true := by
  obtain ⟨rd, ts, lw, kbd, rok, wok⟩ := env
  cases kbd with
  | pollErr => exact absurd hk (by simp [keyboardPhase])
  | idle => exact absurd hk (by simp [keyboardPhase])
  | other => exact absurd hk (by simp [keyboardPhase])
  | key k =>
    simp only [keyboardPhase] at hk
    by_cases h1 : k.modifiers.control ∧ k.code = KeyCode.Char 'c'
    · simp [isCtrlC, h1.1, h1.2]
    · rw [if_neg h1] at hk
      by_cases h2 : k.modifiers.control ∧ k.code = KeyCode.Char 'r'
      · rw [if_pos h2] at hk
        by_cases h3 : rok = true
        · rw [if_pos h3] at hk
          exact absurd hk (by simp)
        · rw [if_neg h3] at hk
          exact absurd hk (by simp)
      · rw [if_neg h2] at hk
        rcases hke : handle_key_event k with _ | bytes <;> rw [hke] at hk <;>
          dsimp only at hk
        · exact absurd hk (by simp)
        · by_cases h4 : wok = true
          · rw [if_pos h4] at hk
            exact absurd hk (by simp)
          · rw [if_neg h4] at hk
            exact absurd hk (by simp)

lemma afterRead_exitOk {i h : Bool} {env : IterEnv} {buf : List Byte} {count : Nat}
    {acts res : List Action}
    (hk : afterRead i h env buf count acts = StepOut.exitOk res) : isCtrlC env = true := by
  simp only [afterRead] at hk
  cases i with
  | false => exact absurd hk (by simp)
  | true => exact keyboardPhase_exitOk hk

/-- The loop body breaks out with `Ok(())` only on a Control+C key event. -/
lemma stepIter_exitOk {i h : Bool} {buf : List Byte} {env : IterEnv}
    {res : List Action} (hs : stepIter i h buf env = StepOut.exitOk res) :
    isCtrlC env = true := by
  rcases henv : env with ⟨rd, ts, lw, kbd, rok, wok⟩
  rw [henv] at hs
  cases rd with
  | interrupted => exact absurd hs (by simp [stepIter])
  | fatal => exact absurd hs (by simp [stepIter])
  | timedOut =>
    simp only [stepIter] at hs
    exact afterRead_exitOk hs
  | ok chunk =>
    simp only [stepIter] at hs
    rcases hlp : logPhase h ⟨ReadResult.ok chunk, ts, lw, kbd, rok, wok⟩
        (writeBuf chunk buf) with _ | logActs <;> rw [hlp] at hs
    · exact absurd hs (by simp)
    · exact afterRead_exitOk hs

/-- A clean `Ok(())` exit of the loop implies a Control+C event
occurred somewhere in the trace. -/
lemma runLoop_ok_ctrlC {i h : Bool} :
    ∀ (trace : List IterEnv) (buf : List Byte),
      (runLoop i h buf trace).1 = Outcome.ok → trace.any isCtrlC = true := by
  intro trace
  induction trace with
  | nil => intro buf hco; exact absurd hco (by simp [runLoop])
  | cons env rest ih =>
    intro buf hco
    simp only [runLoop] at hco
    rcases hstep : stepIter i h buf env with ⟨b2, acts⟩ | acts | acts | acts <;>
      rw [hstep] at hco <;> dsimp only at hco
    · have := ih b2 hco
      simp [List.any_cons, this]
    · simp [List.any_cons, stepIter_exitOk hstep]
    · exact absurd hco (by simp)
    · exact absurd hco (by simp)

/-- Without interactive mode the loop body never breaks with `Ok(())`:
it either proceeds, propagates an error, or panics. -/
lemma stepIter_noninteractive_not_exitOk {h : Bool} {buf : List Byte}
    {env : IterEnv} {res : List Action} :
    stepIter false h buf env ≠ StepOut.exitOk res := by
  intro hs
  have := stepIter_exitOk hs
  rcases henv : env with ⟨rd, ts, lw, kbd, rok, wok⟩
  rw [henv] at hs
  cases rd with
  | interrupted => exact absurd hs (by simp [stepIter])
  | fatal => exact absurd hs (by simp [stepIter])
  | timedOut =>
    simp only [stepIter, afterRead] at hs
    exact absurd hs (by simp)
  | ok chunk =>
    simp only [stepIter] at hs
    rcases hlp : logPhase h ⟨ReadResult.ok chunk, ts, lw, kbd, rok, wok⟩
        (writeBuf chunk buf) with _ | logActs <;> rw [hlp] at hs
    · exact absurd hs (by simp)
    · simp only [afterRead] at hs
      exact absurd hs (by simp)

lemma runLoop_noninteractive_not_ok {h : Bool} :
    ∀ (trace : List IterEnv) (buf : List Byte),
      (runLoop false h buf trace).1 ≠ Outcome.ok := by
  intro trace
  induction trace with
  | nil => intro buf hco; exact absurd hco (by simp [runLoop])
  | cons env rest ih =>
    intro buf hco
    simp only [runLoop] at hco
    rcases hstep : stepIter false h buf env with ⟨b2, acts⟩ | acts | acts | acts <;>
      rw [hstep] at hco <;> dsimp only at hco
    · exact ih b2 hco
    · exact absurd hstep stepIter_noninteractive_not_exitOk
    · exact absurd hco (by simp)
    · exact absurd hco (by simp)

lemma runLoop_noninteractive_no_send {h : Bool} :
    ∀ (trace : List IterEnv) (buf : List Byte) (bs : List Byte),
      Action.serialSend bs ∉ (runLoop false h buf trace).2 := by
  intro trace
  induction trace with
  | nil => intro buf bs hm; exact absurd hm (by simp [runLoop])
  | cons env rest ih =>
    intro buf bs hm
    simp only [runLoop] at hm
    rcases hstep : stepIter false h buf env with ⟨b2, acts⟩ | acts | acts | acts <;>
      rw [hstep] at hm <;> dsimp only at hm
    · rw [List.mem_append] at hm
      rcases hm with hm | hm
      · have : Action.serialSend bs ∈ stepActs (stepIter false h buf env) := by
          rw [hstep]; exact hm
        rcases mem_stepActs_noninteractive this with ⟨s, hc⟩ | hc | hc | ⟨b2, hc⟩ | hc | hc <;>
          simp at hc
      · exact ih b2 bs hm
    · exact absurd hstep stepIter_noninteractive_not_exitOk
    all_goals
      have : Action.serialSend bs ∈ stepActs (stepIter false h buf env) := by
        rw [hstep]; exact hm
      rcases mem_stepActs_noninteractive this with ⟨s, hc⟩ | hc | hc | ⟨b2, hc⟩ | hc | hc <;>
        simp at hc

/-- The loop itself never touches the terminal mode. -/
lemma runLoop_no_raw {i h : Bool} :
    ∀ (trace : List IterEnv) (buf : List Byte) (a : Action),
      a ∈ (runLoop i h buf trace).2 → isRawAct a = false := by
  intro trace
  induction trace with
  | nil => intro buf a hm; exact absurd hm (by simp [runLoop])
  | cons env rest ih =>
    intro buf a hm
    simp only [runLoop] at hm
    have ofStep : a ∈ stepActs (stepIter i h buf env) → isRawAct a = false := by
      intro hs
      rcases mem_stepActs hs with ⟨s, hc⟩ | hc | hc | ⟨bs, hc⟩ | hc | hc | hc | ⟨bs, hc⟩ <;>
        subst hc <;> rfl
    rcases hstep : stepIter i h buf env with ⟨b2, acts⟩ | acts | acts | acts <;>
      rw [hstep] at hm <;> dsimp only at hm
    · rw [List.mem_append] at hm
      rcases hm with hm | hm
      · exact ofStep (by rw [hstep]; exact hm)
      · exact ih b2 a hm
    all_goals exact ofStep (by rw [hstep]; exact hm)

/-- Short form of the loop results used to phrase `monitor` facts. -/
def loopRes (cfg : MonitorCfg) (trace : List IterEnv) : Outcome × List Action :=
  runLoop cfg.interactive (cfg.hasLogPath && cfg.logOpenOk) initBuff trace

/-- When every pre-loop step succeeds and the decoder construction does
not fail, `monitor` is the pre-loop actions followed by the loop run
and the guard drop. -/
lemma monitor_main (cfg : MonitorCfg) (trace : List IterEnv)
    (h1 : cfg.interactive = true ∨ cfg.initResetOk = true)
    (h2 : cfg.baudOk = true) (h3 : cfg.timeoutOk = true)
    (h4 : ¬(cfg.log_format = LogFormat.Defmt ∧ cfg.hasElf = false)) :
    monitor cfg trace =
      ((loopRes cfg trace).1,
        preActs cfg ++ [Action.rawEnable cfg.enableRawOk]
        ++ (if cfg.hasLogPath && !cfg.logOpenOk then [Action.logOpenWarn] else [])
        ++ (loopRes cfg trace).2
        ++ (if (loopRes cfg trace).1 = Outcome.running then []
            else dropGuard cfg.enableRawOk cfg.disableRawOk)) := by
  have hc1 : (!cfg.interactive && !cfg.initResetOk) = false := by
    rcases h1 with h | h <;> simp [h]
  have hc4 : ¬ defmtConstructionFails cfg.log_format cfg.hasElf := h4
  simp only [monitor, hc1, h2, h3, Bool.not_true, Bool.false_eq_true, if_false,
    if_neg hc4, loopRes]

def c1cfg : MonitorCfg :=
  ⟨false, false, LogFormat.Serial, false, true, true, true, true, true, true⟩

def c1env : IterEnv := ⟨ReadResult.ok [0x41], "T", true, KbdPoll.idle, true, true⟩

/-- C1 counterexample: with `interactive` false (no firmware image,
serial format, no log path), `monitor` does NOT return success after
the reset: raw mode is entered and the read/decode loop runs (here the
single read chunk `[0x41]` is fed to the decoder). -/
theorem noninteractive_counterexample :
    (monitor c1cfg [c1env]).1 ≠ Outcome.ok ∧
    Action.rawEnable true ∈ (monitor c1cfg [c1env]).2 ∧
    Action.feed [0x41] ∈ (monitor c1cfg [c1env]).2 := by
  decide

/-- C1 amended: when `interactive` is false, `monitor` performs the
device reset first and then proceeds into a full (keyboard-less)
monitor session: it never returns success — the loop has no exit chord
without keyboard polling — and it never writes key bytes to the serial
channel. -/
theorem noninteractive_resets_then_monitors (cfg : MonitorCfg) (trace : List IterEnv)
    (hi : cfg.interactive = false) :
    (monitor cfg trace).1 ≠ Outcome.ok ∧
    (monitor cfg trace).2.head? = some Action.reset ∧
    ∀ bs : List Byte, Action.serialSend bs ∉ (monitor cfg trace).2 := by
  have hpre : preActs cfg = [Action.reset] := by simp [preActs, hi]
  cases h1 : cfg.initResetOk with
  | false =>
    refine ⟨?_, ?_, ?_⟩ <;> simp [monitor, hi, h1]
  | true =>
    cases h2 : cfg.baudOk with
    | false =>
      refine ⟨?_, ?_, ?_⟩ <;> simp [monitor, hi, h1, h2, hpre]
    | true =>
      cases h3 : cfg.timeoutOk with
      | false =>
        refine ⟨?_, ?_, ?_⟩ <;> simp [monitor, hi, h1, h2, h3, hpre]
      | true =>
        by_cases h4 : cfg.log_format = LogFormat.Defmt ∧ cfg.hasElf = false
        · have hc4 : defmtConstructionFails cfg.log_format cfg.hasElf := h4
          refine ⟨?_, ?_, ?_⟩ <;>
            cases he2 : cfg.enableRawOk <;> cases hd2 : cfg.disableRawOk <;>
            simp [monitor, hi, h1, h2, h3, hpre, hc4, defmtConstructionFails,
              dropGuard, he2, hd2]
        · rw [monitor_main cfg trace (Or.inr h1) h2 h3 h4]
          have hload : ∀ bs : List Byte, Action.serialSend bs ∉ (loopRes cfg trace).2 := by
            intro bs
            rw [loopRes, hi]
            exact runLoop_noninteractive_no_send trace initBuff bs
          refine ⟨?_, ?_, ?_⟩
          · simp only [loopRes, hi]
            exact runLoop_noninteractive_not_ok trace initBuff
          · simp [hpre]
          · intro bs hm
            by_cases hw : (cfg.hasLogPath && !cfg.logOpenOk) = true <;>
              by_cases hr : (loopRes cfg trace).1 = Outcome.running <;>
              cases he2 : cfg.enableRawOk <;> cases hd2 : cfg.disableRawOk <;>
              simp [hpre, hw, hr, he2, hd2, dropGuard, List.mem_append,
                List.mem_cons] at hm <;>
              exact hload bs hm

/-- Witness for C1's amended theorem at a concrete configuration. -/
theorem noninteractive_resets_then_monitors_witness :
    (monitor c1cfg [c1env]).1 ≠ Outcome.ok ∧
    (monitor c1cfg [c1env]).2.head? = some Action.reset ∧
    ∀ bs : List Byte, Action.serialSend bs ∉ (monitor c1cfg [c1env]).2 :=
  noninteractive_resets_then_monitors c1cfg [c1env] rfl

def c2cfg : MonitorCfg :=
  ⟨true, false, LogFormat.Defmt, false, true, true, true, true, true, true⟩

/-- C2 counterexample: requesting the defmt (structured-trace) format
without a firmware image does fail with a configuration error before
the loop, but raw mode IS entered first — `RawModeGuard::new()` at line
98 runs before the parser construction at lines 103-106. -/
theorem defmt_config_error_counterexample :
    (monitor c2cfg []).1 = Outcome.err ∧
    Action.rawEnable true ∈ (monitor c2cfg []).2 := by
  decide

/-- C2 amended: defmt format without a firmware image fails with a
configuration error before the loop starts (no read, no decode, no log
actions), but only after raw mode has been entered; the raw-mode guard
then restores the terminal on this error return. -/
theorem defmt_without_image_fails_after_raw_mode (cfg : MonitorCfg)
    (trace : List IterEnv)
    (hf : cfg.log_format = LogFormat.Defmt) (he : cfg.hasElf = false)
    (h1 : cfg.interactive = true ∨ cfg.initResetOk = true)
    (h2 : cfg.baudOk = true) (h3 : cfg.timeoutOk = true) :
    monitor cfg trace =
      (Outcome.err,
        preActs cfg ++ [Action.rawEnable cfg.enableRawOk]
          ++ dropGuard cfg.enableRawOk cfg.disableRawOk) := by
  have hc1 : (!cfg.interactive && !cfg.initResetOk) = false := by
    rcases h1 with h | h <;> simp [h]
  have hc4 : defmtConstructionFails cfg.log_format cfg.hasElf := ⟨hf, he⟩
  simp only [monitor, hc1, h2, h3, Bool.not_true, Bool.false_eq_true, if_false,
    if_pos hc4]

/-- Witness for C2's amended theorem at a concrete configuration. -/
theorem defmt_without_image_fails_after_raw_mode_witness :
    monitor c2cfg [] =
      (Outcome.err,
        preActs c2cfg ++ [Action.rawEnable c2cfg.enableRawOk]
          ++ dropGuard c2cfg.enableRawOk c2cfg.disableRawOk) :=
  defmt_without_image_fails_after_raw_mode c2cfg [] rfl rfl (Or.inl rfl) rfl rfl

/-- Full decomposition of `monitor` once the setup calls preceding
`RawModeGuard::new()` succeed. -/
lemma monitor_reached_raw (cfg : MonitorCfg) (trace : List IterEnv)
    (h1 : cfg.interactive = true ∨ cfg.initResetOk = true)
    (h2 : cfg.baudOk = true) (h3 : cfg.timeoutOk = true) :
    monitor cfg trace =
      if cfg.log_format = LogFormat.Defmt ∧ cfg.hasElf = false then
        (Outcome.err, preActs cfg ++ [Action.rawEnable cfg.enableRawOk]
          ++ dropGuard cfg.enableRawOk cfg.disableRawOk)
      else
        ((loopRes cfg trace).1, preActs cfg ++ [Action.rawEnable cfg.enableRawOk]
          ++ (if cfg.hasLogPath && !cfg.logOpenOk then [Action.logOpenWarn] else [])
          ++ (loopRes cfg trace).2
          ++ (if (loopRes cfg trace).1 = Outcome.running then []
              else dropGuard cfg.enableRawOk cfg.disableRawOk)) := by
  by_cases h4 : cfg.log_format = LogFormat.Defmt ∧ cfg.hasElf = false
  · rw [if_pos h4]
    have hc1 : (!cfg.interactive && !cfg.initResetOk) = false := by
      rcases h1 with h | h <;> simp [h]
    have hc4 : defmtConstructionFails cfg.log_format cfg.hasElf := h4
    simp only [monitor, hc1, h2, h3, Bool.not_true, Bool.false_eq_true, if_false,
      if_pos hc4]
  · rw [if_neg h4]
    exact monitor_main cfg trace h1 h2 h3 h4

/-- The loop emits no `rawDisable`. -/
lemma runLoop_count_rawDisable {i h : Bool} (trace : List IterEnv) (buf : List Byte) :
    ((runLoop i h buf trace).2).count Action.rawDisable = 0 := by
  rw [List.count_eq_zero]
  intro hm
  have := runLoop_no_raw trace buf _ hm
  simp [isRawAct] at this

/-- The loop emits no `reportDisableFail`. -/
lemma runLoop_no_reportDisableFail {i h : Bool} (trace : List IterEnv) (buf : List Byte) :
    Action.reportDisableFail ∉ (runLoop i h buf trace).2 := by
  intro hm
  have := runLoop_no_raw trace buf _ hm
  simp [isRawAct] at this

lemma loopRes_count_rawDisable (cfg : MonitorCfg) (trace : List IterEnv) :
    ((loopRes cfg trace).2).count Action.rawDisable = 0 :=
  runLoop_count_rawDisable trace initBuff

lemma loopRes_no_reportDisableFail (cfg : MonitorCfg) (trace : List IterEnv) :
    Action.reportDisableFail ∉ (loopRes cfg trace).2 :=
  runLoop_no_reportDisableFail trace initBuff

/-- Replace the two raw-mode outcome fields of a configuration. -/
def withRaw (cfg : MonitorCfg) (e d : Bool) : MonitorCfg :=
  ⟨cfg.interactive, cfg.hasElf, cfg.log_format, cfg.hasLogPath, cfg.logOpenOk,
   cfg.initResetOk, cfg.baudOk, cfg.timeoutOk, e, d⟩

def c3cfg : MonitorCfg :=
  ⟨true, false, LogFormat.Serial, false, true, true, true, true, false, true⟩

def c3env : IterEnv := ⟨ReadResult.ok [0x41], "T", true, KbdPoll.idle, true, true⟩

/-- C3 counterexample: with `enable_raw_mode` failing
(`enableRawOk = false`), the session is NOT aborted at startup: the
`Result<RawModeGuard>` of line 98 is bound without `?`, so the loop
still runs (the read chunk is fed to the decoder and the loop is still
alive afterwards). -/
theorem raw_enable_failure_not_fatal_counterexample :
    (monitor c3cfg [c3env]).1 = Outcome.running ∧
    Action.feed [0x41] ∈ (monitor c3cfg [c3env]).2 := by
  decide

/-- C3 amended: a failure to enable raw mode is IGNORED (the outcome of
`monitor` is identical whatever the raw-mode enable/disable outcomes
are); when (and only when) raw mode was successfully enabled and the
function returns, `disable_raw_mode` runs exactly once — never when
enabling failed, never twice; and a disable failure is reported exactly
in that returning case without changing the outcome. -/
theorem raw_mode_guard_lifecycle (cfg : MonitorCfg) (trace : List IterEnv)
    (e d e2 d2 : Bool)
    (h1 : cfg.interactive = true ∨ cfg.initResetOk = true)
    (h2 : cfg.baudOk = true) (h3 : cfg.timeoutOk = true) :
    (monitor (withRaw cfg e d) trace).1 = (monitor (withRaw cfg e2 d2) trace).1 ∧
    ((monitor (withRaw cfg e d) trace).2.count Action.rawDisable =
      if (monitor (withRaw cfg e d) trace).1 ≠ Outcome.running ∧ e = true then 1 else 0) ∧
    (Action.reportDisableFail ∈ (monitor (withRaw cfg e d) trace).2 ↔
      ((monitor (withRaw cfg e d) trace).1 ≠ Outcome.running ∧ e = true ∧ d = false)) := by
  have hrw : ∀ e3 d3 : Bool, monitor (withRaw cfg e3 d3) trace =
      if cfg.log_format = LogFormat.Defmt ∧ cfg.hasElf = false then
        (Outcome.err, preActs cfg ++ [Action.rawEnable e3] ++ dropGuard e3 d3)
      else
        ((loopRes cfg trace).1, preActs cfg ++ [Action.rawEnable e3]
          ++ (if cfg.hasLogPath && !cfg.logOpenOk then [Action.logOpenWarn] else [])
          ++ (loopRes cfg trace).2
          ++ (if (loopRes cfg trace).1 = Outcome.running then []
              else dropGuard e3 d3)) := by
    intro e3 d3
    exact monitor_reached_raw (withRaw cfg e3 d3) trace h1 h2 h3
  have hcp : (preActs cfg).count Action.rawDisable = 0 := by
    cases hI : cfg.interactive <;> simp [preActs, hI]
  have hcpm : Action.reportDisableFail ∉ preActs cfg := by
    cases hI : cfg.interactive <;> simp [preActs, hI]
  rw [hrw e d, hrw e2 d2]
  by_cases h4 : cfg.log_format = LogFormat.Defmt ∧ cfg.hasElf = false
  · rw [if_pos h4, if_pos h4]
    refine ⟨rfl, ?_, ?_⟩
    · cases e <;> cases d <;>
        simp [List.count_append, hcp, dropGuard, List.count_cons, beq_iff_eq]
    · cases e <;> cases d <;>
        simp [List.mem_append, hcpm, dropGuard]
  · rw [if_neg h4, if_neg h4]
    have hcnt := loopRes_count_rawDisable cfg trace
    have hmem := loopRes_no_reportDisableFail cfg trace
    rcases hlp : loopRes cfg trace with ⟨o, acts⟩
    rw [hlp] at hcnt hmem
    dsimp only at hcnt hmem ⊢
    refine ⟨rfl, ?_, ?_⟩
    · by_cases hw : (cfg.hasLogPath && !cfg.logOpenOk) = true <;>
        by_cases ho : o = Outcome.running <;>
        cases e <;> cases d <;>
        simp [hw, ho, dropGuard, List.count_append, List.count_cons, List.count_nil,
          hcnt, hcp, beq_iff_eq]
    · by_cases hw : (cfg.hasLogPath && !cfg.logOpenOk) = true <;>
        by_cases ho : o = Outcome.running <;>
        cases e <;> cases d <;>
        simp [hw, ho, dropGuard, List.mem_append, List.mem_cons, hmem, hcpm]

def c3base : MonitorCfg :=
  ⟨true, false, LogFormat.Serial, false, true, true, true, true, true, true⟩

/-- Witness for C3's amended theorem at a concrete configuration
(raw-mode enable failing on one side, succeeding on the other). -/
theorem raw_mode_guard_lifecycle_witness :
    (monitor (withRaw c3base false true) []).1 = (monitor (withRaw c3base true true) []).1 ∧
    ((monitor (withRaw c3base false true) []).2.count Action.rawDisable =
      if (monitor (withRaw c3base false true) []).1 ≠ Outcome.running ∧ false = true
      then 1 else 0) ∧
    (Action.reportDisableFail ∈ (monitor (withRaw c3base false true) []).2 ↔
      ((monitor (withRaw c3base false true) []).1 ≠ Outcome.running ∧ false = true ∧
        true = false)) :=
  raw_mode_guard_lifecycle c3base [] false true true true (Or.inl rfl) rfl rfl

def c4cfg : MonitorCfg :=
  ⟨true, false, LogFormat.Serial, true, true, true, true, true, true, true⟩

def c4env : IterEnv := ⟨ReadResult.ok [0xFF], "T", true, KbdPoll.idle, true, true⟩

/-- C4 (code bug): with the log file open, a serial read delivering the
byte `0xFF` makes the session PANIC —
`String::from_utf8(buff.to_vec()).unwrap()` at line 123 fails on
non-UTF-8 data — instead of warning and continuing. -/
theorem log_panic_on_invalid_utf8 :
    (monitor c4cfg [c4env]).1 = Outcome.panic := by
  decide

def mcfgLog : MonitorCfg :=
  ⟨true, false, LogFormat.Serial, true, true, true, true, true, true, true⟩

lemma writeBuf_single_initBuff (b : Byte) :
    writeBuf [b] initBuff = b :: List.replicate 1023 0 := by
  show [b] ++ (List.replicate 1024 (0 : Byte)).drop 1 = b :: List.replicate 1023 0
  rw [show (1024 : Nat) = 1023 + 1 from rfl, List.replicate_succ]
  rfl

/-- Pure-ASCII byte lists decode bytewise (with any sufficient fuel). -/
lemma utf8DecodeGoF_ascii : ∀ l : List Byte, (∀ b ∈ l, b ≤ 0x7F) →
    ∀ fuel : Nat, l.length ≤ fuel →
      utf8DecodeGoF fuel l = some (l.map Char.ofNat) := by
  intro l
  induction l with
  | nil =>
    intro _ fuel _
    cases fuel <;> rfl
  | cons b rest ih =>
    intro h fuel hf
    have hb : b ≤ 0x7F := h b (List.mem_cons_self _ _)
    cases fuel with
    | zero => exact absurd hf (by simp)
    | succ f =>
      rw [utf8DecodeGoF]
      rw [if_pos hb, ih (fun x hx => h x (List.mem_cons_of_mem _ hx)) f
        (Nat.le_of_succ_le_succ (by simpa using hf))]
      rfl

/-- The strip transformation fixes any string free of escapes and
semicolons. -/
lemma stripAnsi_fixed {s : String} (hEsc : ∀ c ∈ s.data, c ≠ '\x1b')
    (hSemi : ∀ c ∈ s.data, c ≠ ';') : stripAnsi s = s := by
  show (⟨stripSemi (stripSgr s.data)⟩ : String) = s
  rw [stripSgr, stripSgrGo_of_no_esc _ _ hEsc, stripSemi, stripSemiGo_of_no_semi _ _ hSemi]

lemma data_append (s t : String) : (s ++ t).data = s.data ++ t.data := by
  cases s
  cases t
  rfl

/-- The buffer written after reading the single ASCII byte `b`, as the
monitor decodes it for the log line. -/
def bufStr (b : Byte) : String := ⟨(b :: List.replicate 1023 0).map Char.ofNat⟩

lemma bufStr_ascii_all (b : Byte) (hb : b ≤ 0x7F) :
    ∀ x ∈ b :: List.replicate 1023 (0 : Byte), x ≤ 0x7F := by
  intro x hx
  rcases List.mem_cons.1 hx with rfl | hx
  · exact hb
  · rw [List.eq_of_mem_replicate hx]
    exact Nat.zero_le _

/-- One full iteration of the monitor with the log file open, reading
the single ASCII byte `b`: the decoder is fed `[b]`, while the log line
is built from the whole 1024-byte buffer. -/
lemma monitor_logging_single (b : Byte) (ts : String) (hb : b ≤ 0x7F) :
    monitor mcfgLog [⟨ReadResult.ok [b], ts, true, KbdPoll.idle, true, true⟩] =
      (Outcome.running,
        [Action.printHelp, Action.rawEnable true,
         Action.logWrite (strip_ansi_formatting_and_apply_timestamp ts (bufStr b)),
         Action.logNewline, Action.feed [b], Action.flushLog, Action.flushStdout]) := by
  have hd : utf8Decode? (writeBuf [b] initBuff) = some (bufStr b) := by
    rw [writeBuf_single_initBuff, utf8Decode?,
      utf8DecodeGoF_ascii _ (bufStr_ascii_all b hb) _ (Nat.le_refl _)]
    rfl
  have hstep : stepIter true true initBuff ⟨ReadResult.ok [b], ts, true, KbdPoll.idle, true, true⟩
      = StepOut.proceed (writeBuf [b] initBuff)
        [Action.logWrite (strip_ansi_formatting_and_apply_timestamp ts (bufStr b)),
         Action.logNewline, Action.feed ((writeBuf [b] initBuff).take 1),
         Action.flushLog, Action.flushStdout] := by
    simp only [stepIter, logPhase, hd, afterRead, keyboardPhase, if_true, List.cons_append,
      List.nil_append, List.singleton_append, List.append_assoc]
    rfl
  have htake : (writeBuf [b] initBuff).take 1 = [b] := by
    rw [writeBuf_single_initBuff]
    rfl
  have hrun : runLoop true true initBuff
      [⟨ReadResult.ok [b], ts, true, KbdPoll.idle, true, true⟩] =
      (Outcome.running,
        [Action.logWrite (strip_ansi_formatting_and_apply_timestamp ts (bufStr b)),
         Action.logNewline, Action.feed [b], Action.flushLog, Action.flushStdout]) := by
    simp only [runLoop, hstep, htake, List.append_nil]
  rw [monitor_main mcfgLog _ (Or.inl rfl) rfl rfl (by simp [mcfgLog])]
  rw [show loopRes mcfgLog [⟨ReadResult.ok [b], ts, true, KbdPoll.idle, true, true⟩]
    = runLoop true true initBuff [⟨ReadResult.ok [b], ts, true, KbdPoll.idle, true, true⟩]
    from rfl, hrun]
  simp only [preActs, mcfgLog, Bool.not_true, Bool.and_false, if_true, List.append_nil,
    List.nil_append, List.singleton_append, List.cons_append, List.append_assoc]
  rfl

lemma bufStr_strip_fixed (b : Byte) (hbe : Char.ofNat b ≠ '\x1b')
    (hbs : Char.ofNat b ≠ ';') :
    stripAnsi (bufStr b) = bufStr b := by
  have hmem : ∀ c ∈ (bufStr b).data, c = Char.ofNat b ∨ c = Char.ofNat 0 := by
    intro c hc
    rcases List.mem_map.1 hc with ⟨x, hx, rfl⟩
    rcases List.mem_cons.1 hx with rfl | hx
    · exact Or.inl rfl
    · rw [List.eq_of_mem_replicate hx]
      exact Or.inr rfl
  refine stripAnsi_fixed ?_ ?_ <;> intro c hc <;>
    rcases hmem c hc with rfl | rfl
  · exact hbe
  · decide
  · exact hbs
  · decide

lemma bufStr_length (b : Byte) : (bufStr b).data.length = 1024 := by
  simp [bufStr]

/-- The log line built from the whole buffer is not the timestamped
strip of the one-byte chunk (their lengths differ: 1028 vs 5). -/
lemma log_line_ne (b : Byte) (c : Char) (hbe : Char.ofNat b ≠ '\x1b')
    (hbs : Char.ofNat b ≠ ';') (hcs : stripAnsi ⟨[c]⟩ = ⟨[c]⟩) :
    strip_ansi_formatting_and_apply_timestamp "T" (bufStr b) ≠
      strip_ansi_formatting_and_apply_timestamp "T" ⟨[c]⟩ := by
  intro he
  have hlen := congrArg (fun s : String => s.data.length) he
  simp only [strip_ansi_formatting_and_apply_timestamp, bufStr_strip_fixed b hbe hbs,
    hcs, data_append, List.length_append, bufStr_length, List.length_cons,
    List.length_nil] at hlen
  omega

/-- C5 (code bug): in an iteration that read the single byte `0x41`
(`"A"`), the decoder is fed exactly that one-byte window, but the log
file does NOT receive the same window: line 123 converts the whole
1024-byte buffer (`buff.to_vec()`), so the entry written is not the
timestamped strip of `"A"` — some log write happens, but not that
one. -/
theorem log_window_mismatch :
    Action.feed [0x41] ∈
      (monitor mcfgLog [⟨ReadResult.ok [0x41], "T", true, KbdPoll.idle, true, true⟩]).2 ∧
    (monitor mcfgLog [⟨ReadResult.ok [0x41], "T", true, KbdPoll.idle, true, true⟩]).2.any
      isLogWriteB = true ∧
    Action.logWrite (strip_ansi_formatting_and_apply_timestamp "T" "A")
      ∉ (monitor mcfgLog [⟨ReadResult.ok [0x41], "T", true, KbdPoll.idle, true, true⟩]).2 := by
  rw [monitor_logging_single 0x41 "T" (by norm_num)]
  have hne : Action.logWrite (strip_ansi_formatting_and_apply_timestamp "T" "A") ≠
      Action.logWrite (strip_ansi_formatting_and_apply_timestamp "T" (bufStr 0x41)) := by
    intro he
    injection he with he2
    exact log_line_ne 0x41 'A' (by decide) (by decide) (by decide) he2.symm
  refine ⟨by simp, by simp [isLogWriteB], ?_⟩
  intro hm
  simp only [List.mem_cons, List.not_mem_nil, or_false] at hm
  rcases hm with hm | hm | hm | hm | hm | hm | hm <;>
    first
      | exact hne hm
      | simp at hm

def c6env1 : IterEnv := ⟨ReadResult.interrupted, "T", true, KbdPoll.idle, true, true⟩

def c6env2 : IterEnv := ⟨ReadResult.fatal, "T", true, KbdPoll.idle, true, true⟩

def c6env3 : IterEnv := ⟨ReadResult.timedOut, "T", true, KbdPoll.idle, true, true⟩

/-- C6: classification of serial-read outcomes in the loop: an
interrupted read is retried immediately without consuming an iteration
(the loop continues on the same state with no decoding and no keyboard
poll — the run is the same as if the attempt had not happened); any
other I/O error aborts the session by propagating out of the loop; and
a timed-out read is not an error — the iteration proceeds as a normal
zero-byte iteration (feeding the empty window, with no log write). -/
theorem read_outcome_classification (i h : Bool) (buf : List Byte) (env : IterEnv)
    (rest : List IterEnv) :
    (env.rd = ReadResult.interrupted →
      runLoop i h buf (env :: rest) = runLoop i h buf rest) ∧
    (env.rd = ReadResult.fatal →
      runLoop i h buf (env :: rest) = (Outcome.err, [])) ∧
    (env.rd = ReadResult.timedOut →
      stepIter i h buf env = afterRead i h env buf 0 []) := by
  refine ⟨?_, ?_, ?_⟩
  · intro hrd
    rcases hr : runLoop i h buf rest with ⟨o, acts⟩
    simp [runLoop, stepIter, hrd, hr]
  · intro hrd
    simp [runLoop, stepIter, hrd]
  · intro hrd
    simp [stepIter, hrd]

/-- Witness for C6 at concrete iteration environments. -/
theorem read_outcome_classification_witness :
    (runLoop true false initBuff [c6env1] = runLoop true false initBuff []) ∧
    (runLoop true false initBuff [c6env2] = (Outcome.err, [])) ∧
    (stepIter true false initBuff c6env3 = afterRead true false c6env3 initBuff 0 []) :=
  ⟨(read_outcome_classification true false initBuff c6env1 []).1 rfl,
   (read_outcome_classification true false initBuff c6env2 []).2.1 rfl,
   (read_outcome_classification true false initBuff c6env3 []).2.2 rfl⟩

/-- C10 (code bug): with the log file open and a received chunk of the
single byte `0x42` (`"B"`), the iteration appends a log entry and its
terminating newline, but the entry is NOT the ANSI-stripped chunk
prefixed by the timestamp — the line written is built from the whole
1024-byte buffer, so the entry `"T - B"` never appears. -/
theorem log_entry_not_stripped_chunk :
    Action.logWrite (strip_ansi_formatting_and_apply_timestamp "T" "B")
      ∉ (monitor mcfgLog [⟨ReadResult.ok [0x42], "T", true, KbdPoll.idle, true, true⟩]).2 ∧
    (monitor mcfgLog [⟨ReadResult.ok [0x42], "T", true, KbdPoll.idle, true, true⟩]).2.any
      isLogWriteB = true ∧
    Action.logNewline ∈
      (monitor mcfgLog [⟨ReadResult.ok [0x42], "T", true, KbdPoll.idle, true, true⟩]).2 := by
  rw [monitor_logging_single 0x42 "T" (by norm_num)]
  have hne : Action.logWrite (strip_ansi_formatting_and_apply_timestamp "T" "B") ≠
      Action.logWrite (strip_ansi_formatting_and_apply_timestamp "T" (bufStr 0x42)) := by
    intro he
    injection he with he2
    exact log_line_ne 0x42 'B' (by decide) (by decide) (by decide) he2.symm
  refine ⟨?_, by simp [isLogWriteB], by simp⟩
  intro hm
  simp only [List.mem_cons, List.not_mem_nil, or_false] at hm
  rcases hm with hm | hm | hm | hm | hm | hm | hm <;>
    first
      | exact hne hm
      | simp at hm

def c8cfg : MonitorCfg :=
  ⟨true, false, LogFormat.Serial, true, true, true, true, true, true, true⟩

def c8env : IterEnv := ⟨ReadResult.ok [0x80], "T", true, KbdPoll.idle, true, true⟩

/-- C8 counterexample: the interactive loop has a third exit besides
Control+C and a fatal I/O error — with the log file open, a read
delivering the lone continuation byte `0x80` ends the loop by a PANIC
(the `unwrap` of line 123), with no Control+C anywhere in the trace and
no serial-read error. -/
theorem loop_exit_panic_counterexample :
    (monitor c8cfg [c8env]).1 = Outcome.panic ∧ [c8env].any isCtrlC = false := by
  decide

def ctrlCEnv : IterEnv :=
  ⟨ReadResult.timedOut, "T", true,
   KbdPoll.key ⟨KeyCode.Char 'c', ⟨true, false, false⟩⟩, true, true⟩

def ctrlREnv : IterEnv :=
  ⟨ReadResult.timedOut, "T", true,
   KbdPoll.key ⟨KeyCode.Char 'r', ⟨true, false, false⟩⟩, true, true⟩

/-- C8 amended: a clean-success exit of `monitor` happens only through
a Control+C key event somewhere in the trace (other endings are a fatal
I/O error — or the logging panic of the line-123 bug); and a Control+R
event in an iteration (with the reset succeeding) issues a device reset
and the loop proceeds — it does not exit, and the serial channel
remains available to later iterations. -/
theorem interactive_loop_exit_and_reset :
    (∀ (cfg : MonitorCfg) (trace : List IterEnv),
      (monitor cfg trace).1 = Outcome.ok → trace.any isCtrlC = true) ∧
    (∀ (h : Bool) (buf : List Byte) (env : IterEnv) (k : KeyEvent),
      env.rd = ReadResult.timedOut → env.kbd = KbdPoll.key k →
      k.modifiers.control = true → k.code = KeyCode.Char 'r' → env.resetOk = true →
      stepIter true h buf env = StepOut.proceed buf
        ([Action.feed []] ++ (if h then [Action.flushLog] else [])
          ++ [Action.flushStdout, Action.reset])) := by
  constructor
  · intro cfg trace hco
    simp only [monitor] at hco
    split at hco
    · simp at hco
    · split at hco
      · simp at hco
      · split at hco
        · simp at hco
        · split at hco
          · simp at hco
          · simp only at hco
            exact runLoop_ok_ctrlC trace initBuff hco
  · intro h buf env k h1 h2 h3 h4 h5
    obtain ⟨rd, ts2, lw, kbd, rok, wok⟩ := env
    simp only at h1 h2 h5
    subst h1 h2 h5
    simp [stepIter, afterRead, keyboardPhase, h3, h4]

/-- Witness for C8's amended theorem: a clean exit produced by a
Control+C event, and a Control+R step that proceeds with a reset. -/
theorem interactive_loop_exit_and_reset_witness :
    [ctrlCEnv].any isCtrlC = true ∧
    stepIter true false initBuff ctrlREnv = StepOut.proceed initBuff
      ([Action.feed []] ++ (if false then [Action.flushLog] else [])
        ++ [Action.flushStdout, Action.reset]) :=
  ⟨interactive_loop_exit_and_reset.1 c8cfg [ctrlCEnv] (by decide),
   interactive_loop_exit_and_reset.2 false initBuff ctrlREnv
     ⟨KeyCode.Char 'r', ⟨true, false, false⟩⟩ rfl rfl rfl rfl rfl⟩

end EspMonitor
